import Mathlib

/-!
Verification development for the Scout AI Query & Evaluation Engine.

This file gives a shallow embedding, in Lean 4, of the decision logic of the
repository's core modules and proves properties of it:

* `src/src/nlp/query_processor.py` — the lexical filter extractor
  (`process_query` and its helpers) and the filter application engine
  (`apply_filters_to_dataframe`);
* `src/src/analysis/ml_models.py` — `predict_player_potential` and
  `evaluate_team_fit`;
* `src/app/models/enhanced_ml_models.py` — the trajectory projection step of
  `PlayerEvaluationModel.predict_player_potential` and
  `_calculate_age_factor`.

Modelling conventions:
* Python floats are modelled as exact rationals (`ℚ`).
* Python strings are modelled as `List Char`; all string scanning helpers
  (substring test, first-occurrence index, the two regular expressions used by
  the extractor) are implemented by structural recursion so that every
  definition is executable and kernel-reducible.  Lowercasing is modelled for
  ASCII, which covers every keyword table in the source.
* Missing / NaN cells of a pandas DataFrame are modelled as `Option.none`;
  pandas semantics (comparisons with NaN are false, quantiles and maxima skip
  NaN, `na=False` in `str.contains`) are reproduced explicitly.
* `pandas.sort_values(col, ascending=False)` is modelled as a stable
  descending sort (`List.insertionSort`) with missing values last
  (`na_position` defaults to last); the source's quicksort kind is
  deterministic but unspecified on ties, and no claim below depends on the
  tie order produced by sorting.
* Python dict iteration order is insertion order; all keyword tables are
  association lists in the source's insertion order.  `list(set(xs))` in the
  extractor is applied to lists without duplicates (each dict key is appended
  at most once), so it is modelled as the identity apart from an unspecified
  order; claims below only depend on membership/emptiness of these lists.
-/

/-! ### String utilities (List Char based, all structurally recursive) -/

/-- ASCII lowercase of one character (Python `str.lower` restricted to ASCII,
which covers every keyword in the source's tables). -/
def char_lower (c : Char) : Char :=
  if 'A' ≤ c ∧ c ≤ 'Z' then Char.ofNat (c.toNat + 32) else c

/-- ASCII lowercase of a string, as a character list. -/
def str_lower (s : List Char) : List Char := s.map char_lower

/-- Python `needle in hay` substring test. -/
def str_contains (hay needle : List Char) : Bool :=
  match hay with
  | [] => needle.isPrefixOf ([] : List Char)
  | _ :: t => needle.isPrefixOf hay || str_contains t needle

/-- Python `hay.find(needle)`: index of the first occurrence, `-1` if absent. -/
def str_find (hay needle : List Char) : Int :=
  match hay with
  | [] => if needle.isPrefixOf ([] : List Char) then 0 else -1
  | _ :: t =>
    if needle.isPrefixOf hay then 0
    else
      match str_find t needle with
      | Int.negSucc _ => -1
      | r => r + 1

/-- Numeric value of a decimal digit character. -/
def dig_val (c : Char) : Nat := c.toNat - 48

/-- Numeric value of a run of decimal digit characters (Python `int`). -/
def nat_of_digits (ds : List Char) : Nat :=
  ds.foldl (fun n c => n * 10 + dig_val c) 0

/-- Python `\s` whitespace class (ASCII part). -/
def is_space (c : Char) : Bool :=
  c = ' ' || c = '\t' || c = '\n' || c = '\x0d' || c = '\x0b' || c = '\x0c'

/-- `re.findall(r'(?:under|over|above|below)?\s*(\d{1,2})', query)`, as the
list of numeric values of the captured groups.  The optional literal prefix
and the `\s*` contain no digits, so the non-overlapping left-to-right scan
captures exactly the maximal digit runs chunked greedily into one- or
two-digit groups. -/
def find_ages : List Char → List Nat
  | [] => []
  | [c] => if c.isDigit then [dig_val c] else []
  | c :: d :: rest =>
    if c.isDigit then
      if d.isDigit then (10 * dig_val c + dig_val d) :: find_ages rest
      else dig_val c :: find_ages (d :: rest)
    else find_ages (d :: rest)

/-- One attempt of `(?:top|best|first)\s*(\d+)` anchored at the current
position, for a single alternative `kw`. -/
def limit_at (kw : List Char) (l : List Char) : Option Nat :=
  if kw.isPrefixOf l then
    let rest := (l.drop kw.length).dropWhile is_space
    let ds := rest.takeWhile Char.isDigit
    if ds.isEmpty then none else some (nat_of_digits ds)
  else none

/-- `re.search(r'(?:top|best|first)\s*(\d+)', query)`: leftmost match wins;
at a given position the alternatives are tried in the pattern's order. -/
def find_limit : List Char → Option Nat
  | [] => none
  | c :: t =>
    match limit_at "top".data (c :: t) with
    | some n => some n
    | none =>
      match limit_at "best".data (c :: t) with
      | some n => some n
      | none =>
        match limit_at "first".data (c :: t) with
        | some n => some n
        | none => find_limit t

/-! ### Keyword tables of `AFLQueryProcessor.__init__` -/

/-- `self.position_keywords`. -/
def position_keywords : List (String × List String) :=
  [("defender", ["defender", "defence", "back", "backman", "fullback", "halfback"]),
   ("midfielder", ["midfielder", "midfield", "mid", "centre", "wing", "winger"]),
   ("forward", ["forward", "forwards", "key forward", "small forward", "fullforward"]),
   ("ruck", ["ruck", "ruckman", "big man"])]

/-- `self.stat_keywords`. -/
def stat_keywords : List (String × List String) :=
  [("disposals", ["disposal", "disposals", "possession", "possessions", "touch", "touches"]),
   ("marks", ["mark", "marks", "marking", "catch", "catches"]),
   ("tackles", ["tackle", "tackles", "tackling", "pressure"]),
   ("goals", ["goal", "goals", "scoring", "kicking goals"]),
   ("contested_possessions", ["contested", "contested possession", "hard ball", "contest"]),
   ("clearances", ["clearance", "clearances", "clearing"]),
   ("goal_accuracy", ["accuracy", "goal accuracy", "kicking accuracy", "accurate"]),
   ("kicks", ["kick", "kicks", "kicking"]),
   ("handballs", ["handball", "handballs", "handpass"])]

/-- `self.team_keywords`. -/
def team_keywords : List (String × List String) :=
  [("adelaide", ["adelaide", "crows"]),
   ("brisbane", ["brisbane", "lions"]),
   ("carlton", ["carlton", "blues"]),
   ("collingwood", ["collingwood", "magpies", "pies"]),
   ("essendon", ["essendon", "bombers"]),
   ("fremantle", ["fremantle", "dockers", "freo"]),
   ("geelong", ["geelong", "cats"]),
   ("gold_coast", ["gold coast", "suns"]),
   ("gws", ["gws", "giants", "greater western sydney"]),
   ("hawthorn", ["hawthorn", "hawks"]),
   ("melbourne", ["melbourne", "demons", "dees"]),
   ("north_melbourne", ["north melbourne", "kangaroos", "roos"]),
   ("port_adelaide", ["port adelaide", "power", "port"]),
   ("richmond", ["richmond", "tigers"]),
   ("st_kilda", ["st kilda", "saints"]),
   ("sydney", ["sydney", "swans"]),
   ("west_coast", ["west coast", "eagles"]),
   ("western_bulldogs", ["western bulldogs", "bulldogs", "dogs"])]

/-- `self.league_keywords`. -/
def league_keywords : List (String × List String) :=
  [("afl", ["afl", "australian football league"]),
   ("vfl", ["vfl", "victorian football league"]),
   ("sanfl", ["sanfl", "south australian national football league"]),
   ("wafl", ["wafl", "west australian football league"]),
   ("neafl", ["neafl", "north east australian football league"])]

/-- `self.comparison_keywords`. -/
def comparison_keywords : List (String × List String) :=
  [("high", ["high", "top", "best", "excellent", "great", "good", "above"]),
   ("low", ["low", "bottom", "worst", "poor", "below"]),
   ("medium", ["medium", "average", "moderate"])]

/-- `self.age_keywords['young']`. -/
def young_keywords : List String := ["young", "youth", "junior", "under"]

/-- `self.age_keywords['experienced']`. -/
def experienced_keywords : List String := ["experienced", "veteran", "old", "senior", "over"]

/-! ### The extracted filter structure

`process_query` builds a dict of eight filters; we model it as a structure.
Numbers extracted from text are Python ints; ages are compared against a
numeric DataFrame column and the limit is passed to `DataFrame.head`, so we
carry them as `ℚ` and `ℤ` respectively. -/

structure Filters where
  positions : List String
  teams : List String
  leagues : List String
  stats : List String
  age_range : Option ℚ × Option ℚ
  comparisons : List (String × String)
  sort_by : Option String
  limit : Option ℤ
deriving Repr, DecidableEq

/-- Generic keyword-table scan shared by `_extract_positions`,
`_extract_teams`, `_extract_leagues`, `_extract_stats`: a key is reported
iff one of its keywords occurs in the (lowercased) query.  The source
appends the key on the first matching keyword and breaks, then deduplicates
with `list(set(...))`; since each key is appended at most once the set is
just the keys in some order, modelled here in table order. -/
def extract_keys (table : List (String × List String)) (q : List Char) : List String :=
  (table.filter (fun e => e.2.any (fun kw => str_contains q kw.data))).map Prod.fst

/-- `_extract_age_range`, first phase: fold the matched numbers through the
branch on the (query-constant) presence of under/below/over/above. -/
def age_fold (q : List Char) (ms : List Nat) : Option ℚ × Option ℚ :=
  ms.foldl
    (fun mm age =>
      if str_contains q "under".data || str_contains q "below".data then
        (mm.1, some (age : ℚ))
      else if str_contains q "over".data || str_contains q "above".data then
        (some (age : ℚ), mm.2)
      else
        match mm.1 with
        | none => (some (age : ℚ), mm.2)
        | some m => (some m, some (age : ℚ)))
    (none, none)

/-- `_extract_age_range`: regex scan, branch fold, then the
young/experienced keyword defaults. -/
def extract_age_range (q : List Char) : Option ℚ × Option ℚ :=
  let mm := age_fold q (find_ages q)
  let mm2 :=
    if young_keywords.any (fun kw => str_contains q kw.data) then
      match mm.2 with
      | none => (mm.1, some (23 : ℚ))
      | some M => (mm.1, some M)
    else mm
  if experienced_keywords.any (fun kw => str_contains q kw.data) then
    match mm2.1 with
    | none => (some (28 : ℚ), mm2.2)
    | some m => (some m, mm2.2)
  else mm2

/-- The inner loops of `_extract_comparisons` for one stat: iterate the
stat's keywords; for a keyword present in the query, iterate the comparison
families, and assign the family whenever one of its keywords is present
within 50 characters of the stat keyword (distance between the two first
occurrences).  Later assignments overwrite earlier ones, exactly as the
source's `comparisons[stat] = comp_type` does. -/
def stat_comp_value (q : List Char) (kws : List String) : Option String :=
  kws.foldl
    (fun acc kw =>
      if str_contains q kw.data then
        comparison_keywords.foldl
          (fun acc2 ce =>
            if ce.2.any (fun ck =>
                str_contains q ck.data &&
                  (str_find q kw.data - str_find q ck.data).natAbs < 50) then
              some ce.1
            else acc2)
          acc
      else acc)
    none

/-- `_extract_comparisons`.  The tokens argument of the source is unused by
its body, so it is not modelled.  The resulting dict is an association list
in stat-table order (= Python dict insertion order, since the outer loop
visits stats in table order). -/
def extract_comparisons (q : List Char) : List (String × String) :=
  stat_keywords.filterMap (fun e => (stat_comp_value q e.2).map (fun v => (e.1, v)))

/-- `_extract_sort_criteria`: if any superlative keyword occurs, the first
stat (in table order) with an occurring keyword; `None` otherwise. -/
def extract_sort_criteria (q : List Char) : Option String :=
  if ["best", "top", "highest", "most", "leading"].any (fun kw => str_contains q kw.data) then
    (stat_keywords.find? (fun e => e.2.any (fun kw => str_contains q kw.data))).map Prod.fst
  else none

/-- `_extract_limit`: the `(?:top|best|first)\s*(\d+)` regex, with the
default of 10 when a superlative appears without an explicit number. -/
def extract_limit (q : List Char) : Option ℤ :=
  match find_limit q with
  | some n => some (n : ℤ)
  | none =>
    if ["top", "best", "leading"].any (fun kw => str_contains q kw.data) then some 10
    else none

/-- `_determine_query_type`: ordered keyword-priority check. -/
def determine_query_type (q : List Char) : String :=
  if ["find", "show", "list", "get"].any (fun kw => str_contains q kw.data) then "search"
  else if ["compare", "vs", "versus"].any (fun kw => str_contains q kw.data) then "comparison"
  else if ["analyze", "analysis", "breakdown"].any (fun kw => str_contains q kw.data) then "analysis"
  else if ["rank", "ranking", "top", "best"].any (fun kw => str_contains q kw.data) then "ranking"
  else if ["predict", "forecast", "potential"].any (fun kw => str_contains q kw.data) then "prediction"
  else "search"

/-- Python truthiness of the `age_range` tuple as tested by
`_calculate_confidence`: the tuple itself is non-empty (truthy), so the
branch taken is `any(tuple)`, which is true iff some component is truthy
(not `None` and not zero). -/
def age_truthy (mm : Option ℚ × Option ℚ) : Bool :=
  (match mm.1 with | some x => x ≠ 0 | none => false) ||
  (match mm.2 with | some x => x ≠ 0 | none => false)

/-- Python truthiness of an optional string (`None` and `''` are falsy). -/
def opt_str_truthy (s : Option String) : Bool :=
  match s with
  | some v => !v.isEmpty
  | none => false

/-- The per-category weight table of `_calculate_confidence`, paired with the
truthiness of the corresponding extracted filter.  The `limit` filter is not
in the source's weight table and therefore does not appear here. -/
def weight_entries (f : Filters) : List (Bool × ℚ) :=
  [(!f.positions.isEmpty, 0.2),
   (!f.teams.isEmpty, 0.15),
   (!f.leagues.isEmpty, 0.1),
   (!f.stats.isEmpty, 0.3),
   (age_truthy f.age_range, 0.1),
   (!f.comparisons.isEmpty, 0.1),
   (opt_str_truthy f.sort_by, 0.05)]

/-- `_calculate_confidence`: the sum of the weights of the non-empty filter
categories, divided by the total weight (with the source's guard against a
non-positive total). -/
def calculate_confidence (f : Filters) : ℚ :=
  let c := (weight_entries f).foldl (fun a bw => if bw.1 then a + bw.2 else a) 0
  let t := (weight_entries f).foldl (fun a bw => a + bw.2) 0
  if 0 < t then c / t else 0

/-- The structured result of `process_query`. -/
structure QueryResult where
  original_query : String
  query_type : String
  filters : Filters
  confidence : ℚ

/-- `process_query`: lowercase, extract every component, determine the query
type, and score the extraction.  (`word_tokenize` feeds only the unused
tokens argument of `_extract_comparisons` and is not modelled.) -/
def process_query (query : String) : QueryResult :=
  let q := str_lower query.data
  let filters : Filters :=
    { positions := extract_keys position_keywords q
      teams := extract_keys team_keywords q
      leagues := extract_keys league_keywords q
      stats := extract_keys stat_keywords q
      age_range := extract_age_range q
      comparisons := extract_comparisons q
      sort_by := extract_sort_criteria q
      limit := extract_limit q }
  { original_query := query
    query_type := determine_query_type q
    filters := filters
    confidence := calculate_confidence filters }

example : str_contains "high disposals".data "disposal".data = true := by decide
example : str_find "high disposals and marks".data "mark".data = 19 := by decide
example : find_ages "top 10".data = [10] := by decide
example : find_ages "over9000 x 1".data = [90, 0, 1] := by decide
example : find_limit "the best  25 players".data = some 25 := by decide
example : str_lower "Top 10".data = "top 10".data := by decide

/-! ### The Filter Application Engine (`apply_filters_to_dataframe`)

A DataFrame row carries the two string-typed columns used by the engine
(`Position`, `Team`) and a map from column name to an optional rational for
the numeric columns (`Age` and the stat columns); `none` is a missing/NaN
cell.  The frame records which columns exist. -/

structure Row where
  position : Option String
  team : Option String
  vals : String → Option ℚ

instance : Inhabited Row := ⟨⟨none, none, fun _ => none⟩⟩

structure Frame where
  hasPosition : Bool
  hasTeam : Bool
  numCols : List String
  rows : List Row

/-- `filtered_df['Position'].str.lower().isin([pos.lower() for pos in ...])`;
a NaN cell lowercases to NaN, and `isin` is false on NaN. -/
def pos_pred (ps : List String) (r : Row) : Bool :=
  match r.position with
  | some p => (ps.map (fun s => str_lower s.data)).contains (str_lower p.data)
  | none => false

/-- `filtered_df['Team'].str.lower().str.contains('|'.join(teams), case=False,
na=False)`: the join of the literal team names is an alternation, so a row
matches iff some team string occurs case-insensitively in the cell; `na=False`
maps NaN cells to false.  (The extractor's team names contain no regex
metacharacters.) -/
def team_pred (ts : List String) (r : Row) : Bool :=
  match r.team with
  | some t => ts.any (fun pat => str_contains (str_lower t.data) (str_lower pat.data))
  | none => false

def pos_step (df : Frame) (f : Filters) (l : List Row) : List Row :=
  if !f.positions.isEmpty && df.hasPosition then l.filter (pos_pred f.positions) else l

def team_step (df : Frame) (f : Filters) (l : List Row) : List Row :=
  if !f.teams.isEmpty && df.hasTeam then l.filter (team_pred f.teams) else l

/-- `filtered_df['Age'] >= min_age` keeps rows whose cell is present and in
range; a NaN comparison is false in pandas. -/
def age_min_pred (m : ℚ) (r : Row) : Bool :=
  match r.vals "Age" with
  | some a => m ≤ a
  | none => false

def age_max_pred (M : ℚ) (r : Row) : Bool :=
  match r.vals "Age" with
  | some a => a ≤ M
  | none => false

/-- `if min_age is not None: ...` — the lower-bound filter. -/
def age_min_step (mo : Option ℚ) (l : List Row) : List Row :=
  match mo with
  | some m => l.filter (age_min_pred m)
  | none => l

/-- `if max_age is not None: ...` — the upper-bound filter. -/
def age_max_step (Mo : Option ℚ) (l : List Row) : List Row :=
  match Mo with
  | some M => l.filter (age_max_pred M)
  | none => l

def age_step (df : Frame) (f : Filters) (l : List Row) : List Row :=
  if df.numCols.contains "Age" then age_max_step f.age_range.2 (age_min_step f.age_range.1 l)
  else l

/-- `Series.quantile(q)` with the default linear interpolation: drop NaN,
sort, and interpolate at position `q * (n - 1)`; `none` (NaN) on an empty
series. -/
def pandas_quantile (q : ℚ) (vs : List ℚ) : Option ℚ :=
  if vs.isEmpty then none
  else
    let l := vs.insertionSort (fun a b => a ≤ b)
    let pos := q * ((l.length : ℚ) - 1)
    let i := (Rat.floor pos).toNat
    let x := l.getD i 0
    some (x + (pos - (i : ℚ)) * (l.getD (i + 1) x - x))

/-- `series >= threshold` elementwise: false when either side is NaN. -/
def value_ge (v : Option ℚ) (thr : Option ℚ) : Bool :=
  match v, thr with
  | some x, some t => t ≤ x
  | _, _ => false

def value_le (v : Option ℚ) (thr : Option ℚ) : Bool :=
  match v, thr with
  | some x, some t => x ≤ t
  | _, _ => false

/-- One iteration of the comparisons loop: thresholds are quantiles of the
stat over the currently retained subset, then the subset is filtered. -/
def comp_one (df : Frame) (stat cmp : String) (l : List Row) : List Row :=
  if df.numCols.contains stat then
    let vs := l.filterMap (fun r => r.vals stat)
    if cmp = "high" then
      l.filter (fun r => value_ge (r.vals stat) (pandas_quantile 0.75 vs))
    else if cmp = "low" then
      l.filter (fun r => value_le (r.vals stat) (pandas_quantile 0.25 vs))
    else if cmp = "medium" then
      l.filter (fun r =>
        value_ge (r.vals stat) (pandas_quantile 0.25 vs) &&
          value_le (r.vals stat) (pandas_quantile 0.75 vs))
    else l
  else l

def comp_steps (df : Frame) : List (String × String) → List Row → List Row
  | [], l => l
  | sc :: rest, l => comp_steps df rest (comp_one df sc.1 sc.2 l)

/-- Stable descending sort by a key into a linear order; `⊥` (missing cell)
sorts last, matching the pandas default `na_position='last'`. -/
def sort_desc_by {α K : Type} [LinearOrder K] (k : α → K) (l : List α) : List α :=
  l.insertionSort (fun a b => k b ≤ k a)

instance sort_rel_decidable {α K : Type} [LinearOrder K] (k : α → K) :
    DecidableRel (fun a b : α => k b ≤ k a) :=
  fun a b => inferInstanceAs (Decidable (k b ≤ k a))

def num_key (c : String) (r : Row) : WithBot ℚ :=
  match r.vals c with
  | some x => (x : WithBot ℚ)
  | none => ⊥

def str_key (g : Row → Option String) (r : Row) : WithBot String :=
  match g r with
  | some s => (s : WithBot String)
  | none => ⊥

/-- `filtered_df.sort_values(col, ascending=False)`, resolving the column:
the two string-typed columns sort lexicographically, every other existing
column numerically. -/
def sort_rows (df : Frame) (c : String) (l : List Row) : List Row :=
  if c = "Position" && df.hasPosition then sort_desc_by (str_key Row.position) l
  else if c = "Team" && df.hasTeam then sort_desc_by (str_key Row.team) l
  else sort_desc_by (num_key c) l

def col_exists (df : Frame) (c : String) : Bool :=
  (c = "Position" && df.hasPosition) || (c = "Team" && df.hasTeam) || df.numCols.contains c

/-- The source's condition `filters['sort_by'] and filters['sort_by'] in
filtered_df.columns` (an empty string is falsy). -/
def sort_applied (df : Frame) (f : Filters) : Bool :=
  match f.sort_by with
  | some c => !c.isEmpty && col_exists df c
  | none => false

def sort_step (df : Frame) (f : Filters) (l : List Row) : List Row :=
  match f.sort_by with
  | some c => if !c.isEmpty && col_exists df c then sort_rows df c l else l
  | none => l

/-- `if filters['limit']: filtered_df = filtered_df.head(filters['limit'])`.
`0` and `None` are falsy (no truncation); `head(n)` is `df[:n]`, which for a
negative `n` drops the last `|n|` rows. -/
def limit_step (lim : Option ℤ) (l : List Row) : List Row :=
  match lim with
  | none => l
  | some n => if n = 0 then l else if 0 < n then l.take n.toNat else l.take (l.length - n.natAbs)

/-- `Series.quantile` on a string-typed column raises `TypeError`; the
source's blanket `except` then returns the original input frame.  The loop
always reaches every entry of the comparisons dict (no earlier step raises),
so the raise is equivalent to this pre-check. -/
def comps_raise (df : Frame) (comps : List (String × String)) : Bool :=
  comps.any (fun sc => (sc.1 = "Position" && df.hasPosition) || (sc.1 = "Team" && df.hasTeam))

def pre_limit_rows (df : Frame) (f : Filters) : List Row :=
  sort_step df f (comp_steps df f.comparisons (age_step df f (team_step df f (pos_step df f df.rows))))

def filtered_rows (df : Frame) (f : Filters) : List Row :=
  limit_step f.limit (pre_limit_rows df f)

/-- `apply_filters_to_dataframe`: position, team, age-range, comparison,
sort and limit steps in the source's order over a copy of the input; the
input frame itself is never mutated (the model is pure). -/
def apply_filters_to_dataframe (df : Frame) (f : Filters) : Frame :=
  if comps_raise df f.comparisons then df
  else { df with rows := filtered_rows df f }

/-- The all-empty filter specification. -/
def empty_filters : Filters :=
  { positions := [], teams := [], leagues := [], stats := [],
    age_range := (none, none), comparisons := [], sort_by := none, limit := none }

/-! ### `src/src/analysis/ml_models.py` — projection guard and team fit

`AFLPlayerAnalytics.predict_player_potential(df)` requires a fitted
performance model.  The already-fitted scorer (the composition of the fitted
scaler's `transform` and the model's `predict`, an external artifact) is
modelled as an opaque-to-the-claims function argument; `None` models the
untrained state `self.performance_model is None`. -/

structure APlayer where
  features : List ℚ
  age : Option ℚ

structure AFrame where
  players : List APlayer
  preds : Option (List (ℚ × ℚ × ℚ))

/-- The continuous age curve of `predict_player_potential`:
`np.where(ages < 26, 1.2 - 0.02*(26 - ages), 1.0 - 0.03*(ages - 26))`, with
`Age.fillna(25)`. -/
def analysis_age_factor (age : Option ℚ) : ℚ :=
  let a := age.getD 25
  if a < 26 then 1.2 - 0.02 * (26 - a) else 1.0 - 0.03 * (a - 26)

/-- `predict_player_potential`: when `self.performance_model is None` the
source logs "Performance model not trained" and returns the input frame
unchanged; otherwise it appends the `Predicted_Performance`,
`Potential_Rating` and `Development_Factor` columns. -/
def predict_player_potential (model : Option (List ℚ → ℚ)) (df : AFrame) : AFrame :=
  match model with
  | none => df
  | some score =>
    { df with
      preds := some (df.players.map (fun p =>
        let perf := score p.features
        let fac := analysis_age_factor p.age
        (perf, perf * fac, fac))) }

/-- The predefined team style profiles of `evaluate_team_fit`
(`team_requirements`); weights may be negative. -/
def team_requirements : List (String × List (String × ℚ)) :=
  [("possession_based",
     [("Uncontested Possessions", 0.3), ("Mark_Disposal_Ratio", 0.2), ("Contested_Rate", -0.1)]),
   ("pressure_based",
     [("Tackles", 0.4), ("Contested Possessions", 0.3), ("Tackle_Efficiency", 0.3)]),
   ("attacking",
     [("Goals", 0.4), ("Goal_Accuracy", 0.3), ("Forward_Pressure", 0.3)]),
   ("defensive",
     [("Tackles", 0.3), ("Contested_Rate", 0.3), ("Mark_Disposal_Ratio", 0.2)])]

/-- One entity of the team-fit population: stat name to optional value. -/
def TPlayer : Type := String → Option ℚ

instance : Inhabited TPlayer := ⟨fun _ => none⟩

/-- `player_df[stat].max()`: pandas max skips NaN; `none` when no value. -/
def col_max (popn : List TPlayer) (stat : String) : Option ℚ :=
  match popn.filterMap (fun p => p stat) with
  | [] => none
  | v :: vs => some (vs.foldl max v)

/-- The inner loop of `evaluate_team_fit` for one entity: for each profile
stat present among the columns, normalize by the population maximum
(substituting 1 when the maximum is NaN or non-positive), weight, and sum.
A NaN cell contributes its value as 0 (`pd.notna` guard). -/
def fit_score (popn : List TPlayer) (cols : List String) (reqs : List (String × ℚ)) (p : TPlayer) : ℚ :=
  reqs.foldl
    (fun acc sw =>
      if cols.contains sw.1 then
        let sv := (p sw.1).getD 0
        let mx := match col_max popn sw.1 with
                  | some m => if 0 < m then m else 1
                  | none => 1
        acc + sw.2 * (sv / mx)
      else acc)
    0

/-- `team_style not in team_requirements` lookup. -/
def team_reqs_for (team_style : String) : Option (List (String × ℚ)) :=
  (team_requirements.find? (fun e => e.1 = team_style)).map Prod.snd

/-- `evaluate_team_fit`: `none` models the unknown-style branch, which logs a
warning and returns the input unscored; otherwise every entity is scored with
`max(0, score)` and the result is sorted descending by the fit score. -/
def evaluate_team_fit (popn : List TPlayer) (cols : List String) (team_style : String) :
    Option (List (TPlayer × ℚ)) :=
  match team_reqs_for team_style with
  | none => none
  | some reqs =>
    some (sort_desc_by (fun pr : TPlayer × ℚ => pr.2)
      (popn.map (fun p => (p, max 0 (fit_score popn cols reqs p)))))

/-! ### `src/app/models/enhanced_ml_models.py` — trajectory projection

`PlayerEvaluationModel.predict_player_potential` builds, for each projection
year, a feature row from the current one: it overwrites `age`,
`career_games` (assuming 22 games per year) and `seasons_played`, multiplies
every column whose name contains "trend" by the discrete age factor, and
re-invokes the fitted scorer on the result. -/

/-- The feature columns selected by `train_player_value_model`
(`feature_cols`), assuming all are available. -/
def feature_columns : List String :=
  ["career_games", "seasons_played", "age", "height", "weight",
   "kicks_avg_10", "marks_avg_10", "handballs_avg_10", "disposals_avg_10",
   "goals_avg_10", "tackles_avg_10", "inside_50s_avg_10", "clearances_avg_10",
   "disposal_efficiency", "goal_accuracy", "brownlow_rate",
   "kicks_trend", "disposals_trend", "goals_trend"]

/-- A prepared feature row (`X_current`, after `fillna(0)`). -/
def FeatureVec : Type := String → ℚ

/-- `_calculate_age_factor`: the discrete age-factor bucket function. -/
def calculate_age_factor (age : ℚ) : ℚ :=
  if age < 20 then 1.1
  else if age < 25 then 1.05
  else if age < 30 then 1.0
  else if age < 33 then 0.95
  else 0.9

/-- `'trend' in col`. -/
def is_trend_col (c : String) : Bool := str_contains c.data "trend".data

/-- One projection step of `predict_player_potential`: the feature row passed
to the scorer for offset `year`.  `current_age`, `current_games` and the
seasons-played count are read from the latest prepared row (`recent_form`),
exactly as in the source. -/
def project_features (x : FeatureVec) (current_age current_games seasons_played : ℚ)
    (year : ℕ) : FeatureVec :=
  let projected_age := current_age + (year : ℚ)
  let base : FeatureVec := fun c =>
    if c = "age" then projected_age
    else if c = "career_games" then current_games + 22 * (year : ℚ)
    else if c = "seasons_played" then seasons_played + (year : ℚ)
    else x c
  let age_factor := calculate_age_factor projected_age
  fun c => if is_trend_col c then base c * age_factor else base c

/-- The projections list: `(year, projected_age, projected_impact,
career_games)` for each offset `1..projection_years`, where `score` is the
fitted scorer (`self.models['player_value'].predict` composed with the fitted
scaler's `transform`). -/
def enhanced_projections (score : FeatureVec → ℚ)
    (x : FeatureVec) (current_age current_games seasons_played : ℚ)
    (projection_years : ℕ) : List (ℕ × ℚ × ℚ × ℚ) :=
  (List.range' 1 projection_years).map (fun year =>
    (year, current_age + (year : ℚ),
     score (project_features x current_age current_games seasons_played year),
     current_games + 22 * (year : ℚ)))

/-! ### Helper lemmas about the engine's steps -/

lemma sort_desc_by_perm {α K : Type} [LinearOrder K] (k : α → K) (l : List α) :
    List.Perm (sort_desc_by k l) l :=
  List.perm_insertionSort _ l

lemma sort_desc_by_sorted {α K : Type} [LinearOrder K] (k : α → K) (l : List α) :
    (sort_desc_by k l).Sorted (fun a b => k b ≤ k a) := by
  haveI : IsTotal α (fun a b => k b ≤ k a) := ⟨fun a b => le_total (k b) (k a)⟩
  haveI : IsTrans α (fun a b => k b ≤ k a) := ⟨fun a b c h1 h2 => le_trans h2 h1⟩
  exact List.sorted_insertionSort _ l

lemma sort_desc_by_eq_self {α K : Type} [LinearOrder K] (k : α → K) {l : List α}
    (h : l.Sorted (fun a b => k b ≤ k a)) : sort_desc_by k l = l :=
  h.insertionSort_eq

lemma pos_step_sublist (df : Frame) (f : Filters) (l : List Row) :
    (pos_step df f l).Sublist l := by
  unfold pos_step
  split
  · exact List.filter_sublist l
  · exact List.Sublist.refl l

lemma team_step_sublist (df : Frame) (f : Filters) (l : List Row) :
    (team_step df f l).Sublist l := by
  unfold team_step
  split
  · exact List.filter_sublist l
  · exact List.Sublist.refl l

lemma age_min_step_sublist (mo : Option ℚ) (l : List Row) :
    (age_min_step mo l).Sublist l := by
  unfold age_min_step
  cases mo with
  | none => exact List.Sublist.refl l
  | some m => exact List.filter_sublist l

lemma age_max_step_sublist (Mo : Option ℚ) (l : List Row) :
    (age_max_step Mo l).Sublist l := by
  unfold age_max_step
  cases Mo with
  | none => exact List.Sublist.refl l
  | some M => exact List.filter_sublist l

lemma age_step_sublist (df : Frame) (f : Filters) (l : List Row) :
    (age_step df f l).Sublist l := by
  unfold age_step
  split
  · exact (age_max_step_sublist _ _).trans (age_min_step_sublist _ l)
  · exact List.Sublist.refl l

lemma comp_one_sublist (df : Frame) (stat cmp : String) (l : List Row) :
    (comp_one df stat cmp l).Sublist l := by
  unfold comp_one
  split
  · split
    · exact List.filter_sublist l
    · split
      · exact List.filter_sublist l
      · split
        · exact List.filter_sublist l
        · exact List.Sublist.refl l
  · exact List.Sublist.refl l

lemma comp_steps_sublist (df : Frame) (comps : List (String × String)) (l : List Row) :
    (comp_steps df comps l).Sublist l := by
  induction comps generalizing l with
  | nil => exact List.Sublist.refl l
  | cons sc rest ih =>
    exact (ih (comp_one df sc.1 sc.2 l)).trans (comp_one_sublist df sc.1 sc.2 l)

lemma sort_rows_perm (df : Frame) (c : String) (l : List Row) :
    List.Perm (sort_rows df c l) l := by
  unfold sort_rows
  split
  · exact sort_desc_by_perm _ l
  · split
    · exact sort_desc_by_perm _ l
    · exact sort_desc_by_perm _ l

lemma sort_step_perm (df : Frame) (f : Filters) (l : List Row) :
    List.Perm (sort_step df f l) l := by
  unfold sort_step
  split
  · split
    · exact sort_rows_perm df _ l
    · exact List.Perm.refl l
  · exact List.Perm.refl l

lemma sort_step_not_applied (df : Frame) (f : Filters) (l : List Row)
    (h : sort_applied df f = false) : sort_step df f l = l := by
  unfold sort_step
  cases hs : f.sort_by with
  | none => rfl
  | some c =>
    have h2 : (!c.isEmpty && col_exists df c) = false := by
      have h3 := h
      simp only [sort_applied, hs] at h3
      exact h3
    simp only [h2, Bool.false_eq_true, if_false]

lemma limit_step_sublist (lim : Option ℤ) (l : List Row) :
    (limit_step lim l).Sublist l := by
  cases lim with
  | none => exact List.Sublist.refl l
  | some n =>
    show (if n = 0 then l else if 0 < n then l.take n.toNat
          else l.take (l.length - n.natAbs)).Sublist l
    by_cases h0 : n = 0
    · rw [if_pos h0]
    · rw [if_neg h0]
      by_cases h1 : 0 < n
      · rw [if_pos h1]
        exact List.take_sublist _ l
      · rw [if_neg h1]
        exact List.take_sublist _ l

lemma sort_rows_of_sublist (df : Frame) (c : String) (l m : List Row)
    (hm : m.Sublist (sort_rows df c l)) : sort_rows df c m = m := by
  unfold sort_rows at hm ⊢
  split at hm
  · next h =>
    rw [if_pos h]
    exact sort_desc_by_eq_self _ ((sort_desc_by_sorted _ l).sublist hm)
  · next h =>
    rw [if_neg h]
    split at hm
    · next h2 =>
      rw [if_pos h2]
      exact sort_desc_by_eq_self _ ((sort_desc_by_sorted _ l).sublist hm)
    · next h2 =>
      rw [if_neg h2]
      exact sort_desc_by_eq_self _ ((sort_desc_by_sorted _ l).sublist hm)

lemma pos_step_prop (df : Frame) (f : Filters) (l : List Row) (r : Row)
    (hr : r ∈ pos_step df f l) (hc : (!f.positions.isEmpty && df.hasPosition) = true) :
    pos_pred f.positions r = true := by
  unfold pos_step at hr
  rw [if_pos hc] at hr
  exact List.of_mem_filter hr

lemma pos_step_eq_self (df : Frame) (f : Filters) (l : List Row)
    (H : ∀ r ∈ l, (!f.positions.isEmpty && df.hasPosition) = true →
      pos_pred f.positions r = true) :
    pos_step df f l = l := by
  unfold pos_step
  split
  · next h => exact List.filter_eq_self.mpr (fun r hr => H r hr h)
  · rfl

lemma team_step_prop (df : Frame) (f : Filters) (l : List Row) (r : Row)
    (hr : r ∈ team_step df f l) (hc : (!f.teams.isEmpty && df.hasTeam) = true) :
    team_pred f.teams r = true := by
  unfold team_step at hr
  rw [if_pos hc] at hr
  exact List.of_mem_filter hr

lemma team_step_eq_self (df : Frame) (f : Filters) (l : List Row)
    (H : ∀ r ∈ l, (!f.teams.isEmpty && df.hasTeam) = true → team_pred f.teams r = true) :
    team_step df f l = l := by
  unfold team_step
  split
  · next h => exact List.filter_eq_self.mpr (fun r hr => H r hr h)
  · rfl

lemma age_step_prop (df : Frame) (f : Filters) (l : List Row) (r : Row)
    (hr : r ∈ age_step df f l) (hc : df.numCols.contains "Age" = true) :
    (∀ m, f.age_range.1 = some m → age_min_pred m r = true) ∧
    (∀ M, f.age_range.2 = some M → age_max_pred M r = true) := by
  unfold age_step at hr
  rw [if_pos hc] at hr
  have hr1 : r ∈ age_min_step f.age_range.1 l := (age_max_step_sublist _ _).subset hr
  constructor
  · intro m hm
    rw [hm] at hr1
    have hr2 : r ∈ List.filter (age_min_pred m) l := hr1
    exact List.of_mem_filter hr2
  · intro M hM
    rw [hM] at hr
    have hr2 : r ∈ List.filter (age_max_pred M) (age_min_step f.age_range.1 l) := hr
    exact List.of_mem_filter hr2

lemma age_step_eq_self (df : Frame) (f : Filters) (l : List Row)
    (H : ∀ r ∈ l, df.numCols.contains "Age" = true →
      (∀ m, f.age_range.1 = some m → age_min_pred m r = true) ∧
      (∀ M, f.age_range.2 = some M → age_max_pred M r = true)) :
    age_step df f l = l := by
  unfold age_step
  split
  · next hc =>
    have e1 : age_min_step f.age_range.1 l = l := by
      cases h1 : f.age_range.1 with
      | none => rfl
      | some m => exact List.filter_eq_self.mpr (fun r hr => (H r hr hc).1 m h1)
    rw [e1]
    cases h2 : f.age_range.2 with
    | none => rfl
    | some M => exact List.filter_eq_self.mpr (fun r hr => (H r hr hc).2 M h2)
  · rfl

lemma sort_step_applied_eq (df : Frame) (f : Filters) (l : List Row) (c : String)
    (hs : f.sort_by = some c) (hcond : (!c.isEmpty && col_exists df c) = true) :
    sort_step df f l = sort_rows df c l := by
  simp only [sort_step, hs, hcond, if_true]

lemma limit_step_none (l : List Row) : limit_step none l = l := rfl

lemma limit_step_zero (l : List Row) : limit_step (some 0) l = l := by
  simp [limit_step]

lemma limit_step_pos (n : ℤ) (hn : 0 < n) (l : List Row) :
    limit_step (some n) l = l.take n.toNat := by
  show (if n = 0 then l else if 0 < n then l.take n.toNat else _) = _
  rw [if_neg (by omega), if_pos hn]

lemma limit_step_neg (n : ℤ) (hn : n < 0) (l : List Row) :
    limit_step (some n) l = l.take (l.length - n.natAbs) := by
  show (if n = 0 then l else if 0 < n then _ else l.take (l.length - n.natAbs)) = _
  rw [if_neg (by omega), if_neg (by omega)]

/-- Core of the idempotence analysis: the five effective steps (with an empty
comparisons dict and a non-negative limit) are jointly idempotent. -/
lemma pipeline_idem (df : Frame) (f : Filters) (l : List Row)
    (hlim : ∀ n : ℤ, f.limit = some n → 0 ≤ n) :
    limit_step f.limit (sort_step df f (age_step df f (team_step df f (pos_step df f
      (limit_step f.limit (sort_step df f (age_step df f (team_step df f
        (pos_step df f l))))))))) =
    limit_step f.limit (sort_step df f (age_step df f (team_step df f (pos_step df f l)))) := by
  set S1 := pos_step df f l with hS1
  set S2 := team_step df f S1 with hS2
  set S3 := age_step df f S2 with hS3
  set S5 := sort_step df f S3 with hS5
  set R := limit_step f.limit S5 with hR
  have hmem5 : ∀ r ∈ R, r ∈ S5 := fun r hr => (limit_step_sublist _ _).subset hr
  have hmem3 : ∀ r ∈ R, r ∈ S3 := fun r hr => (sort_step_perm df f S3).subset (hmem5 r hr)
  have hmem2 : ∀ r ∈ R, r ∈ S2 := fun r hr => (age_step_sublist df f S2).subset (hmem3 r hr)
  have hmem1 : ∀ r ∈ R, r ∈ S1 := fun r hr => (team_step_sublist df f S1).subset (hmem2 r hr)
  have e1 : pos_step df f R = R :=
    pos_step_eq_self df f R (fun r hr hc => pos_step_prop df f l r (hmem1 r hr) hc)
  have e2 : team_step df f R = R :=
    team_step_eq_self df f R (fun r hr hc => team_step_prop df f S1 r (hmem2 r hr) hc)
  have e3 : age_step df f R = R :=
    age_step_eq_self df f R (fun r hr hc => age_step_prop df f S2 r (hmem3 r hr) hc)
  have e5 : sort_step df f R = R := by
    cases happ : sort_applied df f with
    | false => exact sort_step_not_applied df f R happ
    | true =>
      cases hs : f.sort_by with
      | none =>
        have h3 := happ
        simp only [sort_applied, hs] at h3
        exact absurd h3 (by decide)
      | some c =>
        have hcond : (!c.isEmpty && col_exists df c) = true := by
          have h3 := happ
          simp only [sort_applied, hs] at h3
          exact h3
        have hSr : S5 = sort_rows df c S3 := sort_step_applied_eq df f S3 c hs hcond
        have hRsub : R.Sublist (sort_rows df c S3) := by
          rw [← hSr]
          exact limit_step_sublist f.limit S5
        rw [sort_step_applied_eq df f R c hs hcond]
        exact sort_rows_of_sublist df c S3 R hRsub
  have e6 : limit_step f.limit R = R := by
    cases hl : f.limit with
    | none => rfl
    | some n =>
      by_cases h0 : n = 0
      · subst h0
        exact limit_step_zero R
      · have hn : 0 < n := lt_of_le_of_ne (hlim n hl) (Ne.symm h0)
        rw [limit_step_pos n hn R]
        apply List.take_of_length_le
        have hRt : R = S5.take n.toNat := by
          rw [hR, hl]
          exact limit_step_pos n hn S5
        rw [hRt]
        exact le_trans (List.length_take_le _ _) (le_refl _)
  rw [e1, e2, e3, e5, e6]

lemma comp_steps_frame_update (df : Frame) (R : List Row) (comps : List (String × String))
    (l : List Row) :
    comp_steps { df with rows := R } comps l = comp_steps df comps l := by
  induction comps generalizing l with
  | nil => rfl
  | cons sc rest ih =>
    show comp_steps { df with rows := R } rest (comp_one { df with rows := R } sc.1 sc.2 l) =
      comp_steps df rest (comp_one df sc.1 sc.2 l)
    rw [ih]
    rfl

lemma filtered_rows_frame_update (df : Frame) (R : List Row) (f : Filters) :
    filtered_rows { df with rows := R } f =
      limit_step f.limit (sort_step df f (comp_steps df f.comparisons
        (age_step df f (team_step df f (pos_step df f R))))) := by
  unfold filtered_rows pre_limit_rows
  rw [comp_steps_frame_update]
  rfl

lemma filtered_rows_no_comps (df : Frame) (f : Filters) (hcomp : f.comparisons = []) :
    filtered_rows df f =
      limit_step f.limit (sort_step df f (age_step df f (team_step df f
        (pos_step df f df.rows)))) := by
  unfold filtered_rows pre_limit_rows
  rw [hcomp]
  rfl

lemma apply_filters_no_raise (df : Frame) (f : Filters)
    (h : comps_raise df f.comparisons = false) :
    apply_filters_to_dataframe df f = { df with rows := filtered_rows df f } := by
  unfold apply_filters_to_dataframe
  simp only [h, Bool.false_eq_true, if_false]

lemma filtered_rows_subperm (df : Frame) (f : Filters) :
    List.Subperm (filtered_rows df f) df.rows := by
  unfold filtered_rows pre_limit_rows
  have p1 := (limit_step_sublist f.limit
    (sort_step df f (comp_steps df f.comparisons
      (age_step df f (team_step df f (pos_step df f df.rows)))))).subperm
  have p2 := (sort_step_perm df f (comp_steps df f.comparisons
      (age_step df f (team_step df f (pos_step df f df.rows))))).subperm
  have p3 := ((comp_steps_sublist df f.comparisons
      (age_step df f (team_step df f (pos_step df f df.rows)))).trans
    ((age_step_sublist df f (team_step df f (pos_step df f df.rows))).trans
      ((team_step_sublist df f (pos_step df f df.rows)).trans
        (pos_step_sublist df f df.rows)))).subperm
  exact (p1.trans p2).trans p3

lemma filtered_rows_sublist_of_not_sorted (df : Frame) (f : Filters)
    (h : sort_applied df f = false) :
    (filtered_rows df f).Sublist df.rows := by
  unfold filtered_rows pre_limit_rows
  rw [sort_step_not_applied df f _ h]
  exact (limit_step_sublist _ _).trans
    ((comp_steps_sublist _ _ _).trans
      ((age_step_sublist _ _ _).trans
        ((team_step_sublist _ _ _).trans (pos_step_sublist _ _ _))))

/-! ### Helper lemmas about the extractor -/

lemma foldl_if_nonneg (L : List (Bool × ℚ)) (hw : ∀ bw ∈ L, 0 ≤ bw.2) (a : ℚ) (ha : 0 ≤ a) :
    0 ≤ L.foldl (fun x bw => if bw.1 then x + bw.2 else x) a := by
  induction L generalizing a with
  | nil => exact ha
  | cons bw rest ih =>
    apply ih (fun x hx => hw x (List.mem_cons_of_mem _ hx))
    by_cases hb : bw.1 = true
    · simp only [hb, if_true]
      exact add_nonneg ha (hw bw (List.mem_cons_self _ _))
    · simp only [hb, if_false]
      exact ha

lemma foldl_if_le_sum (L : List (Bool × ℚ)) (hw : ∀ bw ∈ L, 0 ≤ bw.2) (a b : ℚ) (hab : a ≤ b) :
    L.foldl (fun x bw => if bw.1 then x + bw.2 else x) a ≤
      L.foldl (fun x bw => x + bw.2) b := by
  induction L generalizing a b with
  | nil => exact hab
  | cons bw rest ih =>
    apply ih (fun x hx => hw x (List.mem_cons_of_mem _ hx))
    by_cases hb : bw.1 = true
    · simp only [hb, if_true]
      exact add_le_add_right hab _
    · simp only [hb, if_false]
      exact le_trans hab (le_add_of_nonneg_right (hw bw (List.mem_cons_self _ _)))

lemma foldl_if_all_false (L : List (Bool × ℚ)) (hL : ∀ bw ∈ L, bw.1 = false) (a : ℚ) :
    L.foldl (fun x bw => if bw.1 then x + bw.2 else x) a = a := by
  induction L generalizing a with
  | nil => rfl
  | cons bw rest ih =>
    have hb := hL bw (List.mem_cons_self _ _)
    show rest.foldl _ (if bw.1 = true then a + bw.2 else a) = a
    rw [hb]
    simp only [Bool.false_eq_true, if_false]
    exact ih (fun x hx => hL x (List.mem_cons_of_mem _ hx)) a

lemma weight_entries_nonneg (f : Filters) : ∀ bw ∈ weight_entries f, 0 ≤ bw.2 := by
  intro bw hbw
  simp only [weight_entries, List.mem_cons, List.not_mem_nil, or_false] at hbw
  rcases hbw with h | h | h | h | h | h | h <;> rw [h] <;> norm_num

lemma weight_total (f : Filters) :
    (weight_entries f).foldl (fun x bw => x + bw.2) 0 = 1 := by
  simp only [weight_entries, List.foldl]
  norm_num

lemma calculate_confidence_nonneg (f : Filters) : 0 ≤ calculate_confidence f := by
  unfold calculate_confidence
  by_cases ht : 0 < (weight_entries f).foldl (fun a bw => a + bw.2) 0
  · rw [if_pos ht]
    exact div_nonneg (foldl_if_nonneg _ (weight_entries_nonneg f) 0 le_rfl) (le_of_lt ht)
  · rw [if_neg ht]

lemma calculate_confidence_le_one (f : Filters) : calculate_confidence f ≤ 1 := by
  unfold calculate_confidence
  by_cases ht : 0 < (weight_entries f).foldl (fun a bw => a + bw.2) 0
  · rw [if_pos ht]
    rw [div_le_one ht]
    exact foldl_if_le_sum _ (weight_entries_nonneg f) 0 0 le_rfl
  · rw [if_neg ht]
    norm_num

/-- No signal: every weighted category of the extracted filters is empty
(the `limit` field carries no weight in the source). -/
def no_signal (f : Filters) : Bool := (weight_entries f).all (fun bw => !bw.1)

lemma calculate_confidence_of_no_signal (f : Filters) (h : no_signal f = true) :
    calculate_confidence f = 0 := by
  have hall : ∀ bw ∈ weight_entries f, bw.1 = false := by
    intro bw hbw
    have := (List.all_eq_true.mp h) bw hbw
    simpa using this
  unfold calculate_confidence
  rw [foldl_if_all_false _ hall 0]
  by_cases ht : 0 < (weight_entries f).foldl (fun a bw => a + bw.2) 0
  · rw [if_pos ht, zero_div]
  · rw [if_neg ht]

/-- The comparison-family scan of `_extract_comparisons` for one stat
keyword `kw` that occurs in the query, starting from accumulator `acc`. -/
def comp_scan (q : List Char) (kw : String) (acc : Option String) : Option String :=
  comparison_keywords.foldl
    (fun acc2 ce =>
      if ce.2.any (fun ck =>
          str_contains q ck.data &&
            (str_find q kw.data - str_find q ck.data).natAbs < 50) then
        some ce.1
      else acc2)
    acc

lemma stat_comp_value_eq (q : List Char) (kws : List String) :
    stat_comp_value q kws =
      kws.foldl (fun acc kw => if str_contains q kw.data then comp_scan q kw acc else acc)
        none := rfl

lemma foldl_pick_isSome_preserves {γ : Type} (P : γ → Bool) (g : γ → String)
    (table : List γ) (acc : Option String) (h : ∃ v, acc = some v) :
    ∃ v, table.foldl (fun a2 ce => if P ce then some (g ce) else a2) acc = some v := by
  induction table generalizing acc with
  | nil => exact h
  | cons ce rest ih =>
    apply ih
    by_cases hP : P ce = true
    · exact ⟨g ce, by simp [hP]⟩
    · rcases h with ⟨v, hv⟩
      exact ⟨v, by simp [hP, hv]⟩

lemma foldl_pick_isSome_of_mem {γ : Type} (P : γ → Bool) (g : γ → String)
    (table : List γ) (acc : Option String) (H : ∃ ce ∈ table, P ce = true) :
    ∃ v, table.foldl (fun a2 ce => if P ce then some (g ce) else a2) acc = some v := by
  induction table generalizing acc with
  | nil =>
    rcases H with ⟨ce, hmem, _⟩
    exact absurd hmem (List.not_mem_nil ce)
  | cons ce rest ih =>
    rcases H with ⟨ce2, hmem, hP⟩
    rcases List.mem_cons.mp hmem with rfl | hmem2
    · have hstep : (if P ce2 = true then some (g ce2) else acc) = some (g ce2) := by
        rw [if_pos hP]
      rw [List.foldl_cons]
      apply foldl_pick_isSome_preserves P g
      exact ⟨g ce2, hstep⟩
    · exact ih _ ⟨ce2, hmem2, hP⟩

lemma comp_scan_preserves (q : List Char) (kw : String) (acc : Option String)
    (h : ∃ v, acc = some v) : ∃ v, comp_scan q kw acc = some v := by
  unfold comp_scan
  exact foldl_pick_isSome_preserves _ _ comparison_keywords acc h

lemma comp_scan_isSome_of_hit (q : List Char) (kw : String) (acc : Option String)
    (H : ∃ ce ∈ comparison_keywords, ce.2.any (fun ck =>
      str_contains q ck.data && (str_find q kw.data - str_find q ck.data).natAbs < 50) = true) :
    ∃ v, comp_scan q kw acc = some v := by
  unfold comp_scan
  exact foldl_pick_isSome_of_mem _ _ comparison_keywords acc H

lemma stat_comp_value_isSome (q : List Char) (kws : List String)
    (H : ∃ kw ∈ kws, str_contains q kw.data = true ∧
      ∃ ce ∈ comparison_keywords, ce.2.any (fun ck =>
        str_contains q ck.data && (str_find q kw.data - str_find q ck.data).natAbs < 50) = true) :
    ∃ v, stat_comp_value q kws = some v := by
  rw [stat_comp_value_eq]
  suffices haux : ∀ (ks : List String) (acc : Option String),
      (∃ kw ∈ ks, str_contains q kw.data = true ∧
        ∃ ce ∈ comparison_keywords, ce.2.any (fun ck =>
          str_contains q ck.data &&
            (str_find q kw.data - str_find q ck.data).natAbs < 50) = true) ∨ (∃ v, acc = some v) →
      ∃ v, ks.foldl (fun acc kw => if str_contains q kw.data then comp_scan q kw acc else acc)
        acc = some v by
    exact haux kws none (Or.inl H)
  intro ks
  induction ks with
  | nil =>
    intro acc h
    rcases h with ⟨kw, hmem, _⟩ | hsome
    · exact absurd hmem (List.not_mem_nil kw)
    · exact hsome
  | cons kw rest ih =>
    intro acc h
    show ∃ v, rest.foldl _ (if str_contains q kw.data then comp_scan q kw acc else acc) = some v
    rcases h with ⟨kw2, hmem, hc, hhit⟩ | hsome
    · rcases List.mem_cons.mp hmem with rfl | hmem2
      · apply ih
        right
        rw [hc, if_pos rfl]
        exact comp_scan_isSome_of_hit q kw2 acc hhit
      · exact ih _ (Or.inl ⟨kw2, hmem2, hc, hhit⟩)
    · apply ih
      right
      by_cases hck : str_contains q kw.data = true
      · rw [hck, if_pos rfl]
        exact comp_scan_preserves q kw acc hsome
      · simp only [hck]
        simpa using hsome

lemma age_fold_single (q : List Char) (n : Nat)
    (hu : str_contains q "under".data = false)
    (hb : str_contains q "below".data = false)
    (ho : str_contains q "over".data = false)
    (ha : str_contains q "above".data = false) :
    age_fold q [n] = (some (n : ℚ), none) := by
  unfold age_fold
  simp only [List.foldl]
  rw [hu, hb, ho, ha]
  rfl

lemma extract_age_range_min (q : List Char) (n : Nat)
    (hages : find_ages q = [n])
    (hu : str_contains q "under".data = false)
    (hb : str_contains q "below".data = false)
    (ho : str_contains q "over".data = false)
    (ha : str_contains q "above".data = false) :
    (extract_age_range q).1 = some (n : ℚ) := by
  unfold extract_age_range
  rw [hages, age_fold_single q n hu hb ho ha]
  by_cases hy : young_keywords.any (fun kw => str_contains q kw.data) = true
  · by_cases he : experienced_keywords.any (fun kw => str_contains q kw.data) = true
    · simp only [hy, he, if_true]
    · simp only [hy, he, if_true, Bool.false_eq_true, if_false]
  · by_cases he : experienced_keywords.any (fun kw => str_contains q kw.data) = true
    · simp only [hy, he, if_true, Bool.false_eq_true, if_false]
    · simp only [hy, he, Bool.false_eq_true, if_false]

lemma extract_limit_of_find (q : List Char) (n : Nat) (h : find_limit q = some n) :
    extract_limit q = some (n : ℤ) := by
  unfold extract_limit
  rw [h]

lemma comp_steps_nil (df : Frame) (l : List Row) : comp_steps df [] l = l := rfl

/-! ### Concrete data used by counterexamples and witnesses -/

/-- A row with a single numeric stat `disposals`. -/
def drow (x : ℚ) : Row := ⟨none, none, fun c => if c = "disposals" then some x else none⟩

/-- The spec's Scenario B population: disposals `[10, 20, 30, 40, 50]`. -/
def quartile_frame : Frame := ⟨false, false, ["disposals"], [drow 10, drow 20, drow 30, drow 40, drow 50]⟩

def high_disposals : Filters := { empty_filters with comparisons := [("disposals", "high")] }

def two_row_frame : Frame := ⟨false, false, ["disposals"], [drow 10, drow 20]⟩

def neg_limit : Filters := { empty_filters with limit := some (-1) }

def sorted_limited : Filters := { empty_filters with sort_by := some "disposals", limit := some 1 }

def aframe0 : AFrame := ⟨[⟨[3, 4], some 24⟩], none⟩

def contested_only : TPlayer := fun c => if c = "Contested_Rate" then some 5 else none

def possession_reqs : List (String × ℚ) :=
  [("Uncontested Possessions", 0.3), ("Mark_Disposal_Ratio", 0.2), ("Contested_Rate", -0.1)]

/-! ### Claim theorems -/

/-- Claim C1, counterexample: filter application is not idempotent on the
spec's own Scenario B population.  A `high` comparison on disposals keeps
`[40, 50]` (P75 = 40); re-applying the same FilterSpec recomputes P75 = 47.5
over the retained subset and keeps only `[50]`. -/
theorem quantile_refilter_shrinks :
    apply_filters_to_dataframe (apply_filters_to_dataframe quartile_frame high_disposals)
      high_disposals ≠ apply_filters_to_dataframe quartile_frame high_disposals := by
  intro h
  have h1 : (apply_filters_to_dataframe quartile_frame high_disposals).rows.length = 2 := by
    with_unfolding_all rfl
  have h2 : (apply_filters_to_dataframe (apply_filters_to_dataframe quartile_frame high_disposals)
      high_disposals).rows.length = 1 := by
    with_unfolding_all rfl
  rw [h, h1] at h2
  exact absurd h2 (by decide)

/-- Claim C1, amended: filter application is idempotent for every FilterSpec
whose comparisons dict is empty and whose limit is not negative; with
comparison buckets the quantile thresholds are recomputed over the retained
subset (and a negative limit drops rows from the end again), so the second
application can strictly shrink the result. -/
theorem apply_filters_idempotent_without_comparisons (df : Frame) (f : Filters)
    (hcomp : f.comparisons = []) (hlim : ∀ n : ℤ, f.limit = some n → 0 ≤ n) :
    apply_filters_to_dataframe (apply_filters_to_dataframe df f) f =
      apply_filters_to_dataframe df f := by
  have hraise : comps_raise df f.comparisons = false := by rw [hcomp]; rfl
  rw [apply_filters_no_raise df f hraise]
  have hraise2 : comps_raise { df with rows := filtered_rows df f } f.comparisons = false := by
    rw [hcomp]; rfl
  rw [apply_filters_no_raise _ f hraise2]
  have hrows : filtered_rows { df with rows := filtered_rows df f } f = filtered_rows df f := by
    rw [filtered_rows_frame_update, hcomp, comp_steps_nil, filtered_rows_no_comps df f hcomp]
    exact pipeline_idem df f df.rows hlim
  rw [hrows]

/-- Claim C1, witness for the amended theorem: sorting by disposals and
truncating to one row is idempotent on a two-row frame. -/
theorem apply_filters_idempotent_without_comparisons_witness :
    apply_filters_to_dataframe (apply_filters_to_dataframe two_row_frame sorted_limited)
      sorted_limited = apply_filters_to_dataframe two_row_frame sorted_limited :=
  apply_filters_idempotent_without_comparisons two_row_frame sorted_limited rfl
    (fun n hn => by
      have h1 : (1 : ℤ) = n := Option.some.inj hn
      omega)

/-- Claim C2 (confirmed): extraction is total by construction (every
definition above is a total function), and for every query string the
confidence is in `[0, 1]`, with confidence `0` when no weighted category
extracted a signal. -/
theorem extraction_confidence_bounds (q : String) :
    0 ≤ (process_query q).confidence ∧ (process_query q).confidence ≤ 1 ∧
      (no_signal (process_query q).filters = true → (process_query q).confidence = 0) := by
  show 0 ≤ calculate_confidence (process_query q).filters ∧
    calculate_confidence (process_query q).filters ≤ 1 ∧
    (no_signal (process_query q).filters = true →
      calculate_confidence (process_query q).filters = 0)
  exact ⟨calculate_confidence_nonneg _, calculate_confidence_le_one _,
    fun h => calculate_confidence_of_no_signal _ h⟩

/-- Claim C2, witness: the empty query extracts nothing and has
confidence exactly `0` (hence also within `[0, 1]`). -/
theorem extraction_confidence_bounds_witness :
    0 ≤ (process_query "").confidence ∧ (process_query "").confidence ≤ 1 ∧
      (process_query "").confidence = 0 :=
  ⟨(extraction_confidence_bounds "").1, (extraction_confidence_bounds "").2.1,
    (extraction_confidence_bounds "").2.2 (by decide)⟩

/-- Claim C3, counterexample: in the analysis engine
(`src/src/analysis/ml_models.py`), invoking the projection with no fitted
scorer returns the input frame unchanged — precisely the behaviour the claim
rules out ("not the input returned unchanged"); no `ModelNotReady` condition
is surfaced, only a log line. -/
theorem unfitted_projection_returns_input :
    predict_player_potential none aframe0 = aframe0 := rfl

/-- Claim C3, amended: in the analysis engine the absence of a fitted scorer
is a silent no-op — the input is returned unchanged with no added
prediction columns and only a logged error.  (The enhanced engine's variant
instead returns an error record after a failed lazy load.) -/
theorem unfitted_projection_is_silent_noop (df : AFrame) :
    predict_player_potential none df = df ∧ (predict_player_potential none df).preds = df.preds :=
  ⟨rfl, rfl⟩

/-- Claim C4, counterexample: a negative limit is not treated as "no limit":
`head(-1)` on a two-row frame drops the final row instead of leaving the
subset untruncated. -/
theorem negative_limit_truncates :
    (apply_filters_to_dataframe two_row_frame neg_limit).rows ≠ two_row_frame.rows := by
  intro h
  have h1 : (apply_filters_to_dataframe two_row_frame neg_limit).rows.length = 1 := by
    with_unfolding_all rfl
  rw [h] at h1
  have h2 : two_row_frame.rows.length = 2 := by with_unfolding_all rfl
  rw [h2] at h1
  exact absurd h1 (by decide)

/-- Claim C4, amended: a missing or zero limit leaves the retained subset
untruncated and a positive limit truncates to at most that many rows, but a
negative limit `n` truncates to all but the last `|n|` rows (`head(n)` is
`df[:n]`). -/
theorem limit_semantics (df : Frame) (f : Filters) (l : List Row) :
    (comps_raise df f.comparisons = false →
      (apply_filters_to_dataframe df f).rows = limit_step f.limit (pre_limit_rows df f)) ∧
    ((f.limit = none ∨ f.limit = some 0) → limit_step f.limit l = l) ∧
    (∀ n : ℤ, f.limit = some n → 0 < n →
      limit_step f.limit l = l.take n.toNat ∧ (limit_step f.limit l).length ≤ n.toNat) ∧
    (∀ n : ℤ, f.limit = some n → n < 0 →
      limit_step f.limit l = l.take (l.length - n.natAbs)) := by
  refine ⟨fun hr => ?_, fun h0 => ?_, fun n hn hpos => ?_, fun n hn hneg => ?_⟩
  · rw [apply_filters_no_raise df f hr]
    rfl
  · rcases h0 with h | h
    · rw [h]
      exact limit_step_none l
    · rw [h]
      exact limit_step_zero l
  · rw [hn, limit_step_pos n hpos l]
    exact ⟨rfl, List.length_take_le _ _⟩
  · rw [hn]
    exact limit_step_neg n hneg l

/-- Claim C4, witness: on a two-row frame with limit 1 the engine's rows are
the limit step of the pre-limit pipeline, and the limit step truncates the
two rows to the first one. -/
theorem limit_semantics_witness :
    (apply_filters_to_dataframe two_row_frame sorted_limited).rows =
      limit_step sorted_limited.limit (pre_limit_rows two_row_frame sorted_limited) ∧
    limit_step sorted_limited.limit [drow 10, drow 20] = [drow 10, drow 20].take 1 ∧
    (limit_step sorted_limited.limit [drow 10, drow 20]).length ≤ 1 :=
  ⟨(limit_semantics two_row_frame sorted_limited []).1 (by decide),
    ((limit_semantics two_row_frame sorted_limited [drow 10, drow 20]).2.2.1 1 rfl
      (by decide)).1,
    ((limit_semantics two_row_frame sorted_limited [drow 10, drow 20]).2.2.1 1 rfl
      (by decide)).2⟩

/-- Claim C5, counterexample: in `"high disposals and marks"` the comparison
keyword `high` (index 0) is within 50 characters of both `disposal` (index 5)
and `mark` (index 19); `disposals` is the nearest stat, yet `marks` also
receives the `high` bucket — the attribution is not restricted to the
nearest stat. -/
theorem comparison_not_only_nearest :
    ("marks", "high") ∈ extract_comparisons "high disposals and marks".data ∧
    (str_find "high disposals and marks".data "disposal".data -
      str_find "high disposals and marks".data "high".data).natAbs <
    (str_find "high disposals and marks".data "mark".data -
      str_find "high disposals and marks".data "high".data).natAbs := by
  decide

/-- Claim C5, amended: a comparison keyword within the 50-character threshold
(measured between first occurrences) is attributed to every stat with an
occurring keyword in that range, not only to the nearest one: any such stat
receives a comparison bucket. -/
theorem comparison_attributed_within_threshold (q : List Char) (stat : String)
    (kws : List String) (htab : (stat, kws) ∈ stat_keywords)
    (H : ∃ kw ∈ kws, str_contains q kw.data = true ∧
      ∃ ce ∈ comparison_keywords, ∃ ck ∈ ce.2, str_contains q ck.data = true ∧
        (str_find q kw.data - str_find q ck.data).natAbs < 50) :
    (extract_comparisons q).any (fun sc => sc.1 == stat) = true := by
  rcases H with ⟨kw, hkw, hc, ce, hce, ck, hck, hcc, hdist⟩
  have H2 : ∃ kw ∈ kws, str_contains q kw.data = true ∧
      ∃ ce ∈ comparison_keywords, ce.2.any (fun ck =>
        str_contains q ck.data && (str_find q kw.data - str_find q ck.data).natAbs < 50) = true := by
    refine ⟨kw, hkw, hc, ce, hce, ?_⟩
    exact List.any_eq_true.mpr ⟨ck, hck, by rw [hcc]; simpa using hdist⟩
  rcases stat_comp_value_isSome q kws H2 with ⟨v, hv⟩
  apply List.any_eq_true.mpr
  refine ⟨(stat, v), ?_, by simp⟩
  apply List.mem_filterMap.mpr
  refine ⟨(stat, kws), htab, ?_⟩
  rw [hv]
  rfl

/-- Claim C5, witness: in `"high disposals and marks"` the non-nearest stat
`marks` has a keyword within the threshold and indeed receives a bucket. -/
theorem comparison_attributed_within_threshold_witness :
    (extract_comparisons "high disposals and marks".data).any
      (fun sc => sc.1 == "marks") = true :=
  comparison_attributed_within_threshold "high disposals and marks".data "marks"
    ["mark", "marks", "marking", "catch", "catches"] (by decide)
    ⟨"mark", by decide, by decide,
      ("high", ["high", "top", "best", "excellent", "great", "good", "above"]), by decide,
      "high", by decide, by decide, by decide⟩

/-- Claim C6, counterexample: `career_games` is a non-trend raw counter, yet
it is not passed to the scorer unchanged — for a current value of 10 it is
advanced to 32 after a one-year projection (22 games per projected year). -/
theorem career_games_not_unchanged :
    is_trend_col "career_games" = false ∧
    project_features (fun _ => 10) 21 10 1 1 "career_games" ≠ 10 := by
  constructor
  · decide
  · have h32 : project_features (fun _ => 10) 21 10 1 1 "career_games" = 32 := by
      with_unfolding_all rfl
    rw [h32]
    norm_num

/-- Claim C6, amended: for each projection offset the discrete age-factor
bucket multiplier (evaluated at the projected age) is multiplied only into
the trend-derived features; every other feature is passed to the scorer
unchanged except the explicitly advanced `age`, `career_games`
(extrapolated at 22 samples per year) and `seasons_played` columns. -/
theorem age_factor_scales_only_trend_features (x : FeatureVec)
    (age games sp : ℚ) (y : ℕ) (c : String)
    (h1 : c ≠ "age") (h2 : c ≠ "career_games") (h3 : c ≠ "seasons_played") :
    project_features x age games sp y c =
      (if is_trend_col c then x c * calculate_age_factor (age + (y : ℚ)) else x c) := by
  simp only [project_features]
  rw [if_neg h1, if_neg h2, if_neg h3]

/-- Claim C6, witness: the spec's Scenario C at age 21 projected one year
ahead — a trend feature of value 10 becomes 10 × 1.05 = 10.5 and a rolling
mean of value 10 stays 10. -/
theorem age_factor_scales_only_trend_features_witness :
    project_features (fun _ => 10) 21 10 1 1 "kicks_trend" = 10.5 ∧
    project_features (fun _ => 10) 21 10 1 1 "kicks_avg_10" = 10 := by
  constructor
  · rw [age_factor_scales_only_trend_features (fun _ => 10) 21 10 1 1 "kicks_trend"
      (by decide) (by decide) (by decide)]
    with_unfolding_all rfl
  · rw [age_factor_scales_only_trend_features (fun _ => 10) 21 10 1 1 "kicks_avg_10"
      (by decide) (by decide) (by decide)]
    with_unfolding_all rfl

/-- Claim C7 (confirmed): the filter engine's result rows are always a
sub-multiset of the input rows (no fabricated rows) and, when no sort
criterion is actually applied, a sublist of the input — the original order
is preserved.  The input frame itself is never mutated: the model is a pure
function of the input (the source operates on `df.copy()`). -/
theorem filter_result_subset_and_order (df : Frame) (f : Filters) :
    List.Subperm (apply_filters_to_dataframe df f).rows df.rows ∧
    (sort_applied df f = false →
      List.Sublist (apply_filters_to_dataframe df f).rows df.rows) := by
  by_cases hr : comps_raise df f.comparisons = true
  · rw [apply_filters_to_dataframe, if_pos hr]
    exact ⟨List.Subperm.refl _, fun _ => List.Sublist.refl _⟩
  · have hr2 : comps_raise df f.comparisons = false := eq_false_of_ne_true hr
    rw [apply_filters_no_raise df f hr2]
    exact ⟨filtered_rows_subperm df f, fun h => filtered_rows_sublist_of_not_sorted df f h⟩

/-- Claim C7, witness: with the high-disposals comparison on the Scenario B
frame (no sort criterion), the retained rows are a sub-multiset and a
sublist of the input rows. -/
theorem filter_result_subset_and_order_witness :
    List.Subperm (apply_filters_to_dataframe quartile_frame high_disposals).rows
      quartile_frame.rows ∧
    List.Sublist (apply_filters_to_dataframe quartile_frame high_disposals).rows
      quartile_frame.rows :=
  ⟨(filter_result_subset_and_order quartile_frame high_disposals).1,
    (filter_result_subset_and_order quartile_frame high_disposals).2 (by decide)⟩

/-- Claim C8 (confirmed): for every population and every predefined
TeamStyleProfile, each entity's team-fit score is `max(0, raw weighted sum)`
— in particular non-negative, and exactly 0 whenever the raw weighted sum is
negative. -/
theorem team_fit_score_nonneg (popn : List TPlayer) (cols : List String) (style : String)
    (scored : List (TPlayer × ℚ)) (reqs : List (String × ℚ))
    (hev : evaluate_team_fit popn cols style = some scored)
    (hreqs : team_reqs_for style = some reqs)
    (i : ℕ) (hi : i < scored.length) :
    0 ≤ (scored.getD i default).2 ∧
    (scored.getD i default).2 =
      max 0 (fit_score popn cols reqs (scored.getD i default).1) ∧
    (fit_score popn cols reqs (scored.getD i default).1 < 0 →
      (scored.getD i default).2 = 0) := by
  have hev2 : some (sort_desc_by (fun pr : TPlayer × ℚ => pr.2)
      (popn.map (fun p => (p, max 0 (fit_score popn cols reqs p))))) = some scored := by
    unfold evaluate_team_fit at hev
    rw [hreqs] at hev
    exact hev
  have hscored : scored = sort_desc_by (fun pr : TPlayer × ℚ => pr.2)
      (popn.map (fun p => (p, max 0 (fit_score popn cols reqs p)))) :=
    (Option.some.inj hev2).symm
  have hmem : scored.getD i default ∈ scored := by
    rw [List.getD_eq_getElem scored default hi]
    exact List.getElem_mem hi
  have hperm : List.Perm scored (popn.map (fun p => (p, max 0 (fit_score popn cols reqs p)))) := by
    rw [hscored]
    exact sort_desc_by_perm _ _
  have hmem2 : scored.getD i default ∈
      popn.map (fun p => (p, max 0 (fit_score popn cols reqs p))) :=
    hperm.subset hmem
  rcases List.mem_map.mp hmem2 with ⟨p, _, hEq⟩
  rw [← hEq]
  refine ⟨le_max_left 0 _, rfl, fun hneg => ?_⟩
  show max 0 (fit_score popn cols reqs p) = 0
  exact max_eq_left (le_of_lt hneg)

/-- Claim C8, witness: a single entity whose only in-column stat carries the
negative `possession_based` weight has raw score `-0.1 × (5/5) = -0.1 < 0`,
and the assigned fit score is clamped to 0. -/
theorem team_fit_score_nonneg_witness :
    0 ≤ (([((contested_only : TPlayer), (0 : ℚ))]).getD 0 default).2 ∧
    (([((contested_only : TPlayer), (0 : ℚ))]).getD 0 default).2 =
      max 0 (fit_score [contested_only] ["Contested_Rate"] possession_reqs
        (([((contested_only : TPlayer), (0 : ℚ))]).getD 0 default).1) ∧
    (([((contested_only : TPlayer), (0 : ℚ))]).getD 0 default).2 = 0 := by
  have h := team_fit_score_nonneg [contested_only] ["Contested_Rate"] "possession_based"
    [((contested_only : TPlayer), (0 : ℚ))] possession_reqs
    (by with_unfolding_all rfl) (by with_unfolding_all rfl) 0 (by decide)
  refine ⟨h.1, h.2.1, h.2.2 ?_⟩
  have hfit : fit_score [contested_only] ["Contested_Rate"] possession_reqs
      (([((contested_only : TPlayer), (0 : ℚ))]).getD 0 default).1 = -0.1 := by
    with_unfolding_all rfl
  rw [hfit]
  norm_num

/-- Claim C9 (confirmed, implicit behaviour): for a query whose only number
is the N of a "top N" phrase and which contains none of under/over/above/
below, that same N is also read as a bare-number age bound — the extractor
sets the age-range minimum to N in addition to `limit = N`. -/
theorem topn_number_sets_age_minimum (q : String) (n : ℕ)
    (hages : find_ages (str_lower q.data) = [n])
    (hu : str_contains (str_lower q.data) "under".data = false)
    (hb : str_contains (str_lower q.data) "below".data = false)
    (ho : str_contains (str_lower q.data) "over".data = false)
    (ha : str_contains (str_lower q.data) "above".data = false)
    (hlim : find_limit (str_lower q.data) = some n) :
    (process_query q).filters.age_range.1 = some (n : ℚ) ∧
    (process_query q).filters.limit = some (n : ℤ) := by
  constructor
  · show (extract_age_range (str_lower q.data)).1 = some (n : ℚ)
    exact extract_age_range_min (str_lower q.data) n hages hu hb ho ha
  · show extract_limit (str_lower q.data) = some (n : ℤ)
    exact extract_limit_of_find (str_lower q.data) n hlim

/-- Claim C9, witness: for `"top 10"` the extractor returns both
`limit = 10` and `age_range = (10, None)`. -/
theorem topn_number_sets_age_minimum_witness :
    (process_query "top 10").filters.age_range.1 = some ((10 : ℕ) : ℚ) ∧
    (process_query "top 10").filters.limit = some ((10 : ℕ) : ℤ) :=
  topn_number_sets_age_minimum "top 10" 10 (by decide) (by decide) (by decide)
    (by decide) (by decide) (by decide)

/-- Claim C10 (confirmed): the confidence score does not read the extracted
limit — two filter sets differing only in the limit have equal confidence,
and a filter set whose only non-empty field is the limit has confidence 0. -/
theorem confidence_independent_of_limit (f : Filters) (l1 l2 : Option ℤ) :
    calculate_confidence { f with limit := l1 } = calculate_confidence { f with limit := l2 } ∧
    calculate_confidence { empty_filters with limit := l1 } = 0 := by
  constructor
  · rfl
  · exact calculate_confidence_of_no_signal _ rfl
